import Mathlib

/-!
Verification of the hotkey-configuration and overlay-resize subsystem of
`tambourine-voice` (Tauri/Rust). Rust sources embedded here:

* `src/app/src-tauri/src/commands/settings.rs` —
  `validate_no_duplicate_shortcut`, `update_hotkey_with_validation`,
  `reset_hotkeys_to_defaults`.
* `src/app/src-tauri/src/commands/overlay.rs` — `resize_overlay`.

The `settings` module itself (struct `HotkeyConfig` with `is_same_as`,
`to_shortcut`, the default factories, struct `AppSettings`, the
`SettingsManager` mutators) and the free function `normalize_shortcut_string`
are not part of the available sources; only their tests and callers are.
Those pieces are modelled from the specification, and each such definition
carries a doc comment starting with `Modelled from the spec:`.

Machine floats (`f64`) are embedded as rationals (`ℚ`): every arithmetic
operation in scope (max with 48, halving, division by a scale factor) is
exact on the inputs the claims quantify over, so no rounding behaviour is
lost. Fallible Rust calls (`Result<_, String>`) become `Except String _`;
windowing side effects are recorded in an explicit world state.
-/

/-- ASCII lowercase of a character list (embeds `str::to_lowercase` on the
ASCII strings that hotkey tokens are). -/
def lowerChars (cs : List Char) : List Char := cs.map Char.toLower

/-- ASCII lowercase of a string. -/
def lowerStr (s : String) : String := ⟨lowerChars s.data⟩

/-- Modelled from the spec: the `HotkeyConfig` value type of the missing
`settings` module — one physical key identifier plus an ordered sequence of
modifier-name strings. -/
structure HotkeyConfig where
  key : String
  modifiers : List String
deriving DecidableEq, Repr

/-- Modelled from the spec: `HotkeyConfig::is_same_as` of the missing
`settings` module — true iff the case-folded key strings are equal and the
case-folded modifier collections have equal cardinality and identical
membership (an order-independent, duplicate-insensitive set comparison). -/
def HotkeyConfig.is_same_as (a b : HotkeyConfig) : Bool :=
  lowerStr a.key = lowerStr b.key
    && a.modifiers.length = b.modifiers.length
    && (a.modifiers.map lowerStr).all (fun m => (b.modifiers.map lowerStr).contains m)
    && (b.modifiers.map lowerStr).all (fun m => (a.modifiers.map lowerStr).contains m)

/-- Modelled from the spec: `HotkeyConfig::default_toggle` of the missing
`settings` module. The key/modifier content is fixed by the test comment
in `settings_commands_tests.rs` ("toggle is Ctrl+Alt+Space"). -/
def HotkeyConfig.default_toggle : HotkeyConfig :=
  { key := "Space", modifiers := ["Ctrl", "Alt"] }

/-- Modelled from the spec: `HotkeyConfig::default_hold` of the missing
`settings` module — a fixed preset; the spec only requires the three
defaults to be mutually non-colliding, the exact tokens are not in the
available sources. -/
def HotkeyConfig.default_hold : HotkeyConfig :=
  { key := "Space", modifiers := ["Ctrl", "Shift"] }

/-- Modelled from the spec: `HotkeyConfig::default_paste_last` of the
missing `settings` module — a fixed preset, mutually non-colliding with the
other two defaults; the exact tokens are not in the available sources. -/
def HotkeyConfig.default_paste_last : HotkeyConfig :=
  { key := "V", modifiers := ["Ctrl", "Shift"] }

/-- Modelled from the spec: the opaque cleanup-prompt-sections record; it
carries no logic in scope. -/
structure CleanupPromptSections where
deriving DecidableEq, Repr

/-- Modelled from the spec: struct `AppSettings` of the missing `settings`
module — the three named hotkey slots plus the independent scalar fields
(which carry no cross-field invariants). -/
structure AppSettings where
  toggle_hotkey : HotkeyConfig
  hold_hotkey : HotkeyConfig
  paste_last_hotkey : HotkeyConfig
  selected_mic : Option String
  sound_enabled : Bool
  cleanup_prompt_sections : Option CleanupPromptSections
  stt_provider : Option String
  llm_provider : Option String
  auto_mute_audio : Bool
  stt_timeout : Option ℚ
deriving DecidableEq, Repr

/-- Embeds `hotkey_type.replace('_', " ")` from `settings.rs`: a
single-char pattern replaced by a single-char string is a character map. -/
def replaceUnderscore (s : String) : String :=
  ⟨s.data.map (fun c => if c = '_' then ' ' else c)⟩

/-- The conflict message built at `settings.rs:19-22`. -/
def conflictMessage (hotkey_type : String) : String :=
  "This shortcut is already used for the " ++ replaceUnderscore hotkey_type ++ " hotkey"

/-- The loop body of `validate_no_duplicate_shortcut` (`settings.rs:17-24`):
walk the slot list, fail on the first non-excluded colliding slot. -/
def checkHotkeyList (new_hotkey : HotkeyConfig) (exclude_type : String) :
    List (String × HotkeyConfig) → Except String Unit
  | [] => Except.ok ()
  | (hotkey_type, existing_hotkey) :: rest =>
    if hotkey_type ≠ exclude_type && new_hotkey.is_same_as existing_hotkey then
      Except.error (conflictMessage hotkey_type)
    else
      checkHotkeyList new_hotkey exclude_type rest

/-- Embeds `validate_no_duplicate_shortcut` (`settings.rs:6-27`): the fixed
slot list `toggle, hold, paste_last` is checked in order against the
candidate, skipping `exclude_type`. -/
def validate_no_duplicate_shortcut (new_hotkey : HotkeyConfig)
    (current_settings : AppSettings) (exclude_type : String) :
    Except String Unit :=
  let hotkeys_to_check : List (String × HotkeyConfig) :=
    [("toggle", current_settings.toggle_hotkey),
     ("hold", current_settings.hold_hotkey),
     ("paste_last", current_settings.paste_last_hotkey)]
  checkHotkeyList new_hotkey exclude_type hotkeys_to_check

/-- Modelled from the spec: the split-on-plus step of the missing
`normalize_shortcut_string`, at the character-list level. Splitting the
empty list yields one empty segment, matching the empty-input edge case. -/
def splitSegs : List Char → List (List Char)
  | [] => [[]]
  | c :: rest =>
    if c = '+' then
      [] :: splitSegs rest
    else
      match splitSegs rest with
      | s :: ss => (c :: s) :: ss
      | [] => [[c]]

/-- Modelled from the spec: the per-segment step of the missing
`normalize_shortcut_string` — case-fold to lowercase, then apply the fixed
modifier rewrite table (ctrl to control; cmd, win and meta to super); every
other segment passes through lowercased but otherwise unchanged. -/
def normalize_segment (seg : String) : String :=
  let s := lowerStr seg
  if s = "ctrl" then "control"
  else if s = "cmd" then "super"
  else if s = "win" then "super"
  else if s = "meta" then "super"
  else s

/-- Rejoin segments with a plus sign, preserving their order. -/
def joinPlus : List String → String
  | [] => ""
  | [s] => s
  | s :: rest => s ++ "+" ++ joinPlus rest

/-- Modelled from the spec: the missing free function
`normalize_shortcut_string` — split on plus, normalize each segment,
rejoin with plus in the original order. Total, never fails. -/
def normalize_shortcut_string (raw : String) : String :=
  joinPlus ((splitSegs raw.data).map (fun cs => normalize_segment ⟨cs⟩))

/-- Modelled from the spec: the `SettingsManager` persisted store behind
its lock. `settings` is the write-through settings record; `persist_plan`
scripts the outcomes of the successive persistence attempts of the external
storage collaborator (head consumed per attempt, exhausted plan means
success), since storage itself is an external collaborator. -/
structure SettingsStore where
  settings : AppSettings
  persist_plan : List Bool
deriving DecidableEq, Repr

/-- Consume one scripted persistence outcome from the store. -/
def persistStep (st : SettingsStore) : Bool × SettingsStore :=
  match st.persist_plan with
  | [] => (true, st)
  | b :: rest => (b, { st with persist_plan := rest })

/-- Modelled from the spec: raw slot mutator `update_toggle_hotkey` of the
missing `SettingsManager` — replaces exactly the toggle slot and persists
immediately (write-through); a persistence failure surfaces as a string
error and leaves the persisted settings unchanged. -/
def SettingsStore.update_toggle_hotkey (st : SettingsStore) (h : HotkeyConfig) :
    Except String Unit × SettingsStore :=
  let step := persistStep st
  if step.1 then
    (Except.ok (), { step.2 with settings := { step.2.settings with toggle_hotkey := h } })
  else
    (Except.error "Failed to save settings", step.2)

/-- Modelled from the spec: raw slot mutator `update_hold_hotkey` of the
missing `SettingsManager`, analogous to the toggle mutator. -/
def SettingsStore.update_hold_hotkey (st : SettingsStore) (h : HotkeyConfig) :
    Except String Unit × SettingsStore :=
  let step := persistStep st
  if step.1 then
    (Except.ok (), { step.2 with settings := { step.2.settings with hold_hotkey := h } })
  else
    (Except.error "Failed to save settings", step.2)

/-- Modelled from the spec: raw slot mutator `update_paste_last_hotkey` of
the missing `SettingsManager`, analogous to the toggle mutator. -/
def SettingsStore.update_paste_last_hotkey (st : SettingsStore) (h : HotkeyConfig) :
    Except String Unit × SettingsStore :=
  let step := persistStep st
  if step.1 then
    (Except.ok (), { step.2 with settings := { step.2.settings with paste_last_hotkey := h } })
  else
    (Except.error "Failed to save settings", step.2)

/-- Embeds `update_hotkey_with_validation` (`settings.rs:32-62`). The
manager is abstracted to a state `σ` with a `get` accessor, exactly as the
Rust helper is generic in its `update_fn` closure; `to_shortcut` is the
parse-validation of the missing `settings` module, kept as a parameter
because its vocabulary belongs to the external global-hotkey subsystem.
The trailing log line (`settings.rs:51-60`) has no state effect and is
omitted. -/
def update_hotkey_with_validation {σ : Type}
    (to_shortcut : HotkeyConfig → Except String Unit)
    (get : σ → Except String AppSettings)
    (hotkey : HotkeyConfig) (hotkey_type : String)
    (settings_manager : σ)
    (update_fn : σ → HotkeyConfig → Except String Unit × σ) :
    Except String Unit × σ :=
  match get settings_manager with
  | Except.error e => (Except.error e, settings_manager)
  | Except.ok current_settings =>
    match validate_no_duplicate_shortcut hotkey current_settings hotkey_type with
    | Except.error e => (Except.error e, settings_manager)
    | Except.ok _ =>
      match to_shortcut hotkey with
      | Except.error e => (Except.error e, settings_manager)
      | Except.ok _ => update_fn settings_manager hotkey

/-- Embeds `reset_hotkeys_to_defaults` (`settings.rs:211-230`): overwrite
the three slots with their factory defaults sequentially, propagating the
first error; return `true` when all three updates succeed. -/
def reset_hotkeys_to_defaults (st : SettingsStore) :
    Except String Bool × SettingsStore :=
  let default_toggle := HotkeyConfig.default_toggle
  let default_hold := HotkeyConfig.default_hold
  let default_paste_last := HotkeyConfig.default_paste_last
  match st.update_toggle_hotkey default_toggle with
  | (Except.error e, st1) => (Except.error e, st1)
  | (Except.ok _, st1) =>
    match st1.update_hold_hotkey default_hold with
    | (Except.error e, st2) => (Except.error e, st2)
    | (Except.ok _, st2) =>
      match st2.update_paste_last_hotkey default_paste_last with
      | (Except.error e, st3) => (Except.error e, st3)
      | (Except.ok _, st3) => (Except.ok true, st3)

/-- Embeds the windowing-layer view of the overlay window that
`resize_overlay` consumes: query results for outer position (physical px,
`Err` as `none`), outer size (physical px), scale factor (`Err` as `none`,
defaulted to 1 by the code), and whether the set-size / set-position calls
succeed. -/
structure WindowHandle where
  outer_position : Option (Int × Int)
  outer_size : Option (Nat × Nat)
  scale_factor : Option ℚ
  set_size_ok : Bool
  set_position_ok : Bool
deriving DecidableEq, Repr

/-- World state of `overlay.rs`: the optional overlay window, the static
`OVERLAY_CENTER` cache, and a log of the applied windowing effects (last
logical size and position actually set, `none` when never set). -/
structure OverlayWorld where
  window : Option WindowHandle
  overlay_center : Option (ℚ × ℚ)
  applied_size : Option (ℚ × ℚ)
  applied_position : Option (ℚ × ℚ)
deriving DecidableEq, Repr

/-- Embeds `resize_overlay` (`overlay.rs:8-48`): clamp both dimensions to a
minimum of 48 logical units; when the overlay window exists, initialize the
cached center from live geometry only when no center is cached yet (and the
position and size queries succeed), then set the clamped size and, when a
center is available, reposition so the window center equals the cached
center. A missing window is a silent success. -/
def resize_overlay (app : OverlayWorld) (width height : ℚ) :
    Except String Unit × OverlayWorld :=
  let min_size : ℚ := 48
  let width := max width min_size
  let height := max height min_size
  match app.window with
  | none => (Except.ok (), app)
  | some window =>
    let center : Option (ℚ × ℚ) :=
      match app.overlay_center with
      | some c => some c
      | none =>
        match window.outer_position, window.outer_size with
        | some pos, some size =>
          let scale := window.scale_factor.getD 1
          let x := (pos.1 : ℚ) / scale
          let y := (pos.2 : ℚ) / scale
          let w := (size.1 : ℚ) / scale
          let h := (size.2 : ℚ) / scale
          some (x + w / 2, y + h / 2)
        | _, _ => none
    let app1 := { app with overlay_center := center }
    if window.set_size_ok then
      let app2 := { app1 with applied_size := some (width, height) }
      match center with
      | some c =>
        let x := c.1 - width / 2
        let y := c.2 - height / 2
        if window.set_position_ok then
          (Except.ok (), { app2 with applied_position := some (x, y) })
        else
          (Except.error "set_position failed", app2)
      | none => (Except.ok (), app2)
    else
      (Except.error "set_size failed", app1)

/-- Concrete world used to probe the anchor policy of `resize_overlay`: a
cached center at (100, 100) while the window itself sits at (200, 200) with
outer size 10 by 10 and scale factor 1, all windowing calls succeeding. -/
def stickyProbeWorld : OverlayWorld :=
  { window := some
      { outer_position := some (200, 200)
        outer_size := some (10, 10)
        scale_factor := some 1
        set_size_ok := true
        set_position_ok := true }
    overlay_center := some (100, 100)
    applied_size := none
    applied_position := none }

/-! ### Helper lemmas -/

theorem char_toNat_ofNat_valid {n : Nat} (h : n < 55296) :
    (Char.ofNat n).toNat = n := by
  rw [Char.ofNat, dif_pos (Or.inl h)]
  rfl

theorem toLower_eq_plus {c : Char} (h : Char.toLower c = '+') : c = '+' := by
  unfold Char.toLower at h
  simp only [ge_iff_le] at h
  split at h
  · exfalso
    have h2 := congrArg Char.toNat h
    rw [char_toNat_ofNat_valid (by omega)] at h2
    have h3 : Char.toNat '+' = 43 := rfl
    omega
  · exact h

theorem lowerChars_no_plus {cs : List Char} (h : '+' ∉ cs) :
    '+' ∉ lowerChars cs := by
  intro mem
  obtain ⟨c, hc, heq⟩ := List.mem_map.1 mem
  exact h (toLower_eq_plus heq ▸ hc)

theorem normalize_segment_no_plus {cs : List Char} (h : '+' ∉ cs) :
    '+' ∉ (normalize_segment ⟨cs⟩).data := by
  have hlow : '+' ∉ (lowerStr ⟨cs⟩).data := lowerChars_no_plus h
  simp only [normalize_segment]
  split_ifs <;> first | decide | exact hlow

theorem splitSegs_ne_nil : ∀ cs : List Char, splitSegs cs ≠ []
  | [] => by simp [splitSegs]
  | c :: rest => by
    simp only [splitSegs]
    split
    · simp
    · cases h : splitSegs rest with
      | nil => exact absurd h (splitSegs_ne_nil rest)
      | cons s ss => simp

theorem mem_splitSegs_no_plus :
    ∀ cs : List Char, ∀ s ∈ splitSegs cs, '+' ∉ s := by
  intro cs
  induction cs with
  | nil =>
    intro s hs
    simp [splitSegs] at hs
    simp [hs]
  | cons c rest ih =>
    intro s hs
    simp only [splitSegs] at hs
    by_cases hc : c = '+'
    · rw [if_pos hc] at hs
      rcases List.mem_cons.1 hs with h | h
      · simp [h]
      · exact ih s h
    · rw [if_neg hc] at hs
      cases hsp : splitSegs rest with
      | nil => exact absurd hsp (splitSegs_ne_nil rest)
      | cons s0 ss =>
        rw [hsp] at hs
        rcases List.mem_cons.1 hs with h | h
        · subst h
          intro hmem
          rcases List.mem_cons.1 hmem with h | h
          · exact hc h.symm
          · exact ih s0 (hsp ▸ List.mem_cons_self s0 ss) h
        · exact ih s (hsp ▸ List.mem_cons_of_mem s0 h)

theorem splitSegs_single : ∀ a : List Char, '+' ∉ a → splitSegs a = [a] := by
  intro a
  induction a with
  | nil => intro _; rfl
  | cons c rest ih =>
    intro h
    have hc : c ≠ '+' := fun hc => h (hc ▸ List.mem_cons_self c rest)
    have hrest : '+' ∉ rest := fun hm => h (List.mem_cons_of_mem c hm)
    simp only [splitSegs, if_neg hc, ih hrest]

theorem splitSegs_append_plus :
    ∀ a t : List Char, '+' ∉ a → splitSegs (a ++ '+' :: t) = a :: splitSegs t := by
  intro a t
  induction a with
  | nil => intro _; simp [splitSegs]
  | cons c rest ih =>
    intro h
    have hc : c ≠ '+' := fun hc => h (hc ▸ List.mem_cons_self c rest)
    have hrest : '+' ∉ rest := fun hm => h (List.mem_cons_of_mem c hm)
    simp only [List.cons_append, splitSegs, if_neg hc, List.append_eq]
    rw [ih hrest]

theorem splitSegs_joinPlus :
    ∀ segs : List (List Char), segs ≠ [] → (∀ s ∈ segs, '+' ∉ s) →
      splitSegs (joinPlus (segs.map (fun cs => (⟨cs⟩ : String)))).data = segs := by
  intro segs
  induction segs with
  | nil => intro h; exact absurd rfl h
  | cons s rest ih =>
    intro _ hp
    cases rest with
    | nil => exact splitSegs_single s (hp s (List.mem_cons_self s []))
    | cons s2 rest2 =>
      have hdata : (joinPlus (((s :: s2 :: rest2).map (fun cs => (⟨cs⟩ : String))))).data
          = s ++ '+' :: (joinPlus ((s2 :: rest2).map (fun cs => (⟨cs⟩ : String)))).data := by
        simp [joinPlus, String.data_append]
      rw [hdata, splitSegs_append_plus s _ (hp s (List.mem_cons_self s _)),
        ih (by simp) (fun x hx => hp x (List.mem_cons_of_mem s hx))]

theorem splitSegs_normalize (raw : String) :
    splitSegs (normalize_shortcut_string raw).data
      = (splitSegs raw.data).map (fun cs => (normalize_segment ⟨cs⟩).data) := by
  unfold normalize_shortcut_string
  have hmap : (splitSegs raw.data).map (fun cs => normalize_segment ⟨cs⟩)
      = ((splitSegs raw.data).map (fun cs => (normalize_segment ⟨cs⟩).data)).map
          (fun cs => (⟨cs⟩ : String)) := by
    rw [List.map_map]
    exact rfl
  rw [hmap, splitSegs_joinPlus]
  · intro hnil
    exact splitSegs_ne_nil raw.data (List.map_eq_nil_iff.1 hnil)
  · intro s hs
    obtain ⟨cs, hcs, heq⟩ := List.mem_map.1 hs
    exact heq ▸ normalize_segment_no_plus (mem_splitSegs_no_plus raw.data cs hcs)

theorem string_contains_iff (l : List String) (s : String) :
    l.contains s = true ↔ s ∈ l := by
  induction l with
  | nil => simp
  | cons x xs ih => simp [List.contains] at ih ⊢

theorem is_same_as_iff (a b : HotkeyConfig) :
    a.is_same_as b = true ↔
      (lowerStr a.key = lowerStr b.key ∧
       a.modifiers.length = b.modifiers.length ∧
       ∀ m, m ∈ a.modifiers.map lowerStr ↔ m ∈ b.modifiers.map lowerStr) := by
  unfold HotkeyConfig.is_same_as
  simp only [Bool.and_eq_true, decide_eq_true_eq, List.all_eq_true, string_contains_iff]
  constructor
  · rintro ⟨⟨⟨hk, hl⟩, hab⟩, hba⟩
    exact ⟨hk, hl, fun m => ⟨fun hm => hab m hm, fun hm => hba m hm⟩⟩
  · rintro ⟨hk, hl, hm⟩
    exact ⟨⟨⟨hk, hl⟩, fun m hmem => (hm m).1 hmem⟩, fun m hmem => (hm m).2 hmem⟩

theorem is_same_as_congr_left (a a' b : HotkeyConfig)
    (hk : lowerStr a.key = lowerStr a'.key)
    (hl : a.modifiers.length = a'.modifiers.length)
    (hm : ∀ m, m ∈ a.modifiers.map lowerStr ↔ m ∈ a'.modifiers.map lowerStr) :
    a.is_same_as b = a'.is_same_as b := by
  cases h1 : a.is_same_as b <;> cases h2 : a'.is_same_as b <;> try rfl
  · obtain ⟨k2, l2, m2⟩ := (is_same_as_iff a' b).1 h2
    rw [(is_same_as_iff a b).2
      ⟨hk.trans k2, hl.trans l2, fun m => (hm m).trans (m2 m)⟩] at h1
    exact h1.symm
  · obtain ⟨k2, l2, m2⟩ := (is_same_as_iff a b).1 h1
    rw [(is_same_as_iff a' b).2
      ⟨hk.symm.trans k2, hl.symm.trans l2, fun m => (hm m).symm.trans (m2 m)⟩] at h2
    exact h2

theorem checkHotkeyList_ok_iff (c : HotkeyConfig) (ex : String) :
    ∀ l : List (String × HotkeyConfig),
      (checkHotkeyList c ex l = Except.ok () ↔
        ∀ p ∈ l, p.1 = ex ∨ c.is_same_as p.2 = false) := by
  intro l
  induction l with
  | nil => simp [checkHotkeyList]
  | cons hd tl ih =>
    obtain ⟨name, hk⟩ := hd
    by_cases h1 : name = ex
    · simp [checkHotkeyList, h1, ih]
    · cases h2 : c.is_same_as hk
      · simp [checkHotkeyList, h1, h2, ih]
      · simp [checkHotkeyList, h1, h2]

theorem is_same_as_symm (a b : HotkeyConfig) : a.is_same_as b = b.is_same_as a := by
  cases h1 : a.is_same_as b <;> cases h2 : b.is_same_as a <;> try rfl
  · obtain ⟨k2, l2, m2⟩ := (is_same_as_iff b a).1 h2
    rw [(is_same_as_iff a b).2 ⟨k2.symm, l2.symm, fun m => (m2 m).symm⟩] at h1
    exact h1.symm
  · obtain ⟨k2, l2, m2⟩ := (is_same_as_iff a b).1 h1
    rw [(is_same_as_iff b a).2 ⟨k2.symm, l2.symm, fun m => (m2 m).symm⟩] at h2
    exact h2

/-! ### Claim theorems -/

/-- C2: for every pair of `HotkeyConfig` values `a` and `b`,
`a.is_same_as b` is true iff their key strings are equal case-insensitively
and their case-folded modifier collections have equal cardinality and
identical membership; the relation is symmetric, and invariant under
permutation of the modifier list and under changes of letter case in key or
modifiers. -/
theorem hotkey_is_same_as_spec :
    (∀ a b : HotkeyConfig, a.is_same_as b = true ↔
      (lowerStr a.key = lowerStr b.key ∧
       a.modifiers.length = b.modifiers.length ∧
       ∀ m, m ∈ a.modifiers.map lowerStr ↔ m ∈ b.modifiers.map lowerStr))
    ∧ (∀ a b : HotkeyConfig, a.is_same_as b = b.is_same_as a)
    ∧ (∀ a a' b : HotkeyConfig, a.key = a'.key → a.modifiers.Perm a'.modifiers →
        a.is_same_as b = a'.is_same_as b)
    ∧ (∀ a a' b : HotkeyConfig, lowerStr a.key = lowerStr a'.key →
        a.modifiers.map lowerStr = a'.modifiers.map lowerStr →
        a.is_same_as b = a'.is_same_as b) := by
  refine ⟨is_same_as_iff, is_same_as_symm, ?_, ?_⟩
  · intro a a' b hk hperm
    refine is_same_as_congr_left a a' b (by rw [hk]) hperm.length_eq ?_
    intro m
    exact (hperm.map lowerStr).mem_iff
  · intro a a' b hk hmap
    refine is_same_as_congr_left a a' b hk ?_ ?_
    · have := congrArg List.length hmap
      simpa using this
    · intro m
      rw [hmap]

/-- C2 witness: permutation invariance applied at a concrete pair of
configurations. -/
theorem hotkey_is_same_as_spec_witness :
    HotkeyConfig.is_same_as ⟨"Space", ["Ctrl", "Alt"]⟩ ⟨"space", ["alt", "ctrl"]⟩
      = HotkeyConfig.is_same_as ⟨"Space", ["Alt", "Ctrl"]⟩ ⟨"space", ["alt", "ctrl"]⟩ :=
  hotkey_is_same_as_spec.2.2.1 ⟨"Space", ["Ctrl", "Alt"]⟩ ⟨"Space", ["Alt", "Ctrl"]⟩
    ⟨"space", ["alt", "ctrl"]⟩ rfl (List.Perm.swap "Alt" "Ctrl" [])

/-- C7: `normalize_shortcut_string` splits on plus, lowercases every
segment, rewrites ctrl to control and cmd, win, meta to super, leaves every
other segment lowercased but otherwise unchanged, and rejoins with plus
preserving segment order and count; the empty string maps to itself and a
lone key is only case-folded. It is total by construction. -/
theorem normalize_shortcut_string_spec :
    normalize_shortcut_string "" = ""
    ∧ normalize_shortcut_string "Space" = "space"
    ∧ normalize_shortcut_string "Ctrl+Space" = "control+space"
    ∧ normalize_shortcut_string "CTRL+A" = "control+a"
    ∧ normalize_shortcut_string "cmd+shift+a" = "super+shift+a"
    ∧ normalize_shortcut_string "WIN+a" = "super+a"
    ∧ normalize_shortcut_string "Meta+b" = "super+b"
    ∧ normalize_shortcut_string "ctrl+meta+x" = "control+super+x"
    ∧ normalize_shortcut_string "control+alt+space" = "control+alt+space"
    ∧ normalize_shortcut_string "ctrl+Backquote" = "control+backquote"
    ∧ (∀ s : String, lowerStr s ∉ (["ctrl", "cmd", "win", "meta"] : List String) →
        normalize_segment s = lowerStr s)
    ∧ (∀ s : String, lowerStr s = "ctrl" → normalize_segment s = "control")
    ∧ (∀ s : String, lowerStr s = "cmd" ∨ lowerStr s = "win" ∨ lowerStr s = "meta" →
        normalize_segment s = "super")
    ∧ (∀ raw : String,
        splitSegs (normalize_shortcut_string raw).data
          = (splitSegs raw.data).map (fun cs => (normalize_segment ⟨cs⟩).data)) := by
  refine ⟨by decide, by decide, by decide, by decide, by decide, by decide, by decide,
    by decide, by decide, by decide, ?_, ?_, ?_, splitSegs_normalize⟩
  · intro s h
    simp only [List.mem_cons, List.not_mem_nil, or_false, not_or] at h
    obtain ⟨h1, h2, h3, h4⟩ := h
    simp only [normalize_segment, if_neg h1, if_neg h2, if_neg h3, if_neg h4]
  · intro s h
    simp only [normalize_segment, if_pos h]
  · rintro s (h | h | h) <;>
      simp only [normalize_segment, h] <;> decide

/-- C7 witness: the pass-through case of the rewrite table applied at the
segment Shift. -/
theorem normalize_shortcut_string_spec_witness :
    normalize_segment "Shift" = lowerStr "Shift" :=
  normalize_shortcut_string_spec.2.2.2.2.2.2.2.2.2.2.1 "Shift" (by decide)

/-- C3: `validate_no_duplicate_shortcut` checks the slots in the fixed
order toggle, hold, paste_last, skips the slot named by `exclude_type`,
fails on the first non-excluded slot whose hotkey `is_same_as` the
candidate with a message naming that slot with underscores replaced by
spaces, and succeeds iff no non-excluded slot collides. -/
theorem validate_no_duplicate_shortcut_spec (c : HotkeyConfig) (s : AppSettings) (ex : String) :
    (validate_no_duplicate_shortcut c s ex = Except.ok () ↔
      (("toggle" = ex ∨ c.is_same_as s.toggle_hotkey = false) ∧
       ("hold" = ex ∨ c.is_same_as s.hold_hotkey = false) ∧
       ("paste_last" = ex ∨ c.is_same_as s.paste_last_hotkey = false)))
    ∧ ("toggle" ≠ ex → c.is_same_as s.toggle_hotkey = true →
        validate_no_duplicate_shortcut c s ex
          = Except.error "This shortcut is already used for the toggle hotkey")
    ∧ (("toggle" = ex ∨ c.is_same_as s.toggle_hotkey = false) →
        "hold" ≠ ex → c.is_same_as s.hold_hotkey = true →
        validate_no_duplicate_shortcut c s ex
          = Except.error "This shortcut is already used for the hold hotkey")
    ∧ (("toggle" = ex ∨ c.is_same_as s.toggle_hotkey = false) →
        ("hold" = ex ∨ c.is_same_as s.hold_hotkey = false) →
        "paste_last" ≠ ex → c.is_same_as s.paste_last_hotkey = true →
        validate_no_duplicate_shortcut c s ex
          = Except.error "This shortcut is already used for the paste last hotkey") := by
  have hmsg_t : conflictMessage "toggle"
      = "This shortcut is already used for the toggle hotkey" := by decide
  have hmsg_h : conflictMessage "hold"
      = "This shortcut is already used for the hold hotkey" := by decide
  have hmsg_p : conflictMessage "paste_last"
      = "This shortcut is already used for the paste last hotkey" := by decide
  refine ⟨?_, ?_, ?_, ?_⟩
  · rw [validate_no_duplicate_shortcut, checkHotkeyList_ok_iff]
    simp
  · intro hne hsame
    simp [validate_no_duplicate_shortcut, checkHotkeyList, hne, hsame, hmsg_t]
  · intro h1 hne hsame
    rcases h1 with h1 | h1
    · subst h1
      simp [validate_no_duplicate_shortcut, checkHotkeyList, hne, hsame, hmsg_h]
    · simp [validate_no_duplicate_shortcut, checkHotkeyList, h1, hne, hsame, hmsg_h]
  · intro h1 h2 hne hsame
    rcases h1 with h1 | h1 <;> rcases h2 with h2 | h2
    · subst h1
      exact absurd h2 (by decide)
    · subst h1
      simp [validate_no_duplicate_shortcut, checkHotkeyList, h2, hne, hsame, hmsg_p]
    · subst h2
      simp [validate_no_duplicate_shortcut, checkHotkeyList, h1, hne, hsame, hmsg_p]
    · simp [validate_no_duplicate_shortcut, checkHotkeyList, h1, h2, hne, hsame, hmsg_p]

/-- C3 witness: a candidate colliding with the toggle slot while updating
the hold slot is rejected with the toggle message. -/
theorem validate_no_duplicate_shortcut_spec_witness :
    validate_no_duplicate_shortcut ⟨"space", ["ALT", "ctrl"]⟩
      ⟨⟨"Space", ["Ctrl", "Alt"]⟩, ⟨"Space", ["Ctrl", "Shift"]⟩, ⟨"V", ["Ctrl", "Shift"]⟩,
        none, false, none, none, none, false, none⟩ "hold"
      = Except.error "This shortcut is already used for the toggle hotkey" :=
  (validate_no_duplicate_shortcut_spec ⟨"space", ["ALT", "ctrl"]⟩
    ⟨⟨"Space", ["Ctrl", "Alt"]⟩, ⟨"Space", ["Ctrl", "Shift"]⟩, ⟨"V", ["Ctrl", "Shift"]⟩,
      none, false, none, none, none, false, none⟩ "hold").2.1 (by decide) (by decide)

/-- C4: a live hotkey update reads the settings, runs conflict validation
excluding the target slot, then parse validation, and only then the raw
mutator; when the read or either validation step fails, the error is
returned and the manager state is untouched (the mutator is never
invoked); when both validations pass, the outcome is exactly that of the
raw mutator. -/
theorem update_hotkey_with_validation_spec :
    ∀ (σ : Type) (to_shortcut : HotkeyConfig → Except String Unit)
      (get : σ → Except String AppSettings) (hotkey : HotkeyConfig)
      (hotkey_type : String) (sm : σ)
      (update_fn : σ → HotkeyConfig → Except String Unit × σ),
      (∀ e, get sm = Except.error e →
        update_hotkey_with_validation to_shortcut get hotkey hotkey_type sm update_fn
          = (Except.error e, sm))
      ∧ (∀ s e, get sm = Except.ok s →
          validate_no_duplicate_shortcut hotkey s hotkey_type = Except.error e →
          update_hotkey_with_validation to_shortcut get hotkey hotkey_type sm update_fn
            = (Except.error e, sm))
      ∧ (∀ s e, get sm = Except.ok s →
          validate_no_duplicate_shortcut hotkey s hotkey_type = Except.ok () →
          to_shortcut hotkey = Except.error e →
          update_hotkey_with_validation to_shortcut get hotkey hotkey_type sm update_fn
            = (Except.error e, sm))
      ∧ (∀ s, get sm = Except.ok s →
          validate_no_duplicate_shortcut hotkey s hotkey_type = Except.ok () →
          to_shortcut hotkey = Except.ok () →
          update_hotkey_with_validation to_shortcut get hotkey hotkey_type sm update_fn
            = update_fn sm hotkey) := by
  intro σ to_shortcut get hotkey hotkey_type sm update_fn
  refine ⟨?_, ?_, ?_, ?_⟩ <;> intros <;>
    simp [update_hotkey_with_validation, *]

/-- C4 witness: a conflicting candidate is rejected by the conflict
validator and the manager state (a counter standing for the store) is left
unchanged, with the mutator never applied. -/
theorem update_hotkey_with_validation_spec_witness :
    update_hotkey_with_validation (fun _ => Except.ok ())
      (fun _ : Nat => Except.ok
        ⟨⟨"Space", ["Ctrl", "Alt"]⟩, ⟨"Space", ["Ctrl", "Shift"]⟩, ⟨"V", ["Ctrl", "Shift"]⟩,
          none, false, none, none, none, false, none⟩)
      ⟨"space", ["ALT", "ctrl"]⟩ "hold" 0 (fun n _ => (Except.ok (), n + 1))
      = (Except.error "This shortcut is already used for the toggle hotkey", 0) :=
  (update_hotkey_with_validation_spec Nat (fun _ => Except.ok ())
    (fun _ => Except.ok
      ⟨⟨"Space", ["Ctrl", "Alt"]⟩, ⟨"Space", ["Ctrl", "Shift"]⟩, ⟨"V", ["Ctrl", "Shift"]⟩,
        none, false, none, none, none, false, none⟩)
    ⟨"space", ["ALT", "ctrl"]⟩ "hold" 0 (fun n _ => (Except.ok (), n + 1))).2.1
    ⟨⟨"Space", ["Ctrl", "Alt"]⟩, ⟨"Space", ["Ctrl", "Shift"]⟩, ⟨"V", ["Ctrl", "Shift"]⟩,
      none, false, none, none, none, false, none⟩
    "This shortcut is already used for the toggle hotkey" rfl (by rfl)

/-- C10: `reset_hotkeys_to_defaults` persists the three default slots
sequentially (toggle, then hold, then paste_last) and is not atomic: a
failure at a later slot returns the error while every earlier slot stays
overwritten with its default, and the call returns true exactly when all
three updates succeed. -/
theorem reset_hotkeys_to_defaults_spec :
    ∀ (s : AppSettings) (b1 b2 b3 : Bool) (rest : List Bool),
      ((reset_hotkeys_to_defaults ⟨s, b1 :: b2 :: b3 :: rest⟩).1 = Except.ok true ↔
        b1 = true ∧ b2 = true ∧ b3 = true)
      ∧ (b1 = false →
          reset_hotkeys_to_defaults ⟨s, b1 :: b2 :: b3 :: rest⟩
            = (Except.error "Failed to save settings", ⟨s, b2 :: b3 :: rest⟩))
      ∧ (b1 = true → b2 = false →
          reset_hotkeys_to_defaults ⟨s, b1 :: b2 :: b3 :: rest⟩
            = (Except.error "Failed to save settings",
               ⟨{ s with toggle_hotkey := HotkeyConfig.default_toggle }, b3 :: rest⟩))
      ∧ (b1 = true → b2 = true → b3 = false →
          reset_hotkeys_to_defaults ⟨s, b1 :: b2 :: b3 :: rest⟩
            = (Except.error "Failed to save settings",
               ⟨{ s with
                  toggle_hotkey := HotkeyConfig.default_toggle
                  hold_hotkey := HotkeyConfig.default_hold }, rest⟩))
      ∧ (b1 = true → b2 = true → b3 = true →
          reset_hotkeys_to_defaults ⟨s, b1 :: b2 :: b3 :: rest⟩
            = (Except.ok true,
               ⟨{ s with
                  toggle_hotkey := HotkeyConfig.default_toggle
                  hold_hotkey := HotkeyConfig.default_hold
                  paste_last_hotkey := HotkeyConfig.default_paste_last }, rest⟩)) := by
  intro s b1 b2 b3 rest
  cases b1 <;> cases b2 <;> cases b3 <;>
    simp [reset_hotkeys_to_defaults, SettingsStore.update_toggle_hotkey,
      SettingsStore.update_hold_hotkey, SettingsStore.update_paste_last_hotkey, persistStep]

/-- C10 witness: with the first persistence succeeding and the second
failing, the toggle slot is already overwritten when the error is
returned. -/
theorem reset_hotkeys_to_defaults_spec_witness :
    reset_hotkeys_to_defaults
      ⟨⟨⟨"A", []⟩, ⟨"B", []⟩, ⟨"C", []⟩, none, false, none, none, none, false, none⟩,
        [true, false, true]⟩
      = (Except.error "Failed to save settings",
         ⟨⟨HotkeyConfig.default_toggle, ⟨"B", []⟩, ⟨"C", []⟩,
           none, false, none, none, none, false, none⟩, [true]⟩) :=
  (reset_hotkeys_to_defaults_spec
    ⟨⟨"A", []⟩, ⟨"B", []⟩, ⟨"C", []⟩, none, false, none, none, none, false, none⟩
    true false true []).2.2.1 rfl rfl

/-- C6: when the overlay window does not exist, `resize_overlay` returns
success and the whole world state — cached center, applied size, applied
position — is bit-for-bit unchanged. -/
theorem resize_overlay_no_window_noop :
    ∀ (st : OverlayWorld) (w h : ℚ), st.window = none →
      resize_overlay st w h = (Except.ok (), st) := by
  intro st w h hw
  simp [resize_overlay, hw]

/-- C6 witness: the no-op at a concrete windowless world. -/
theorem resize_overlay_no_window_noop_witness :
    resize_overlay ⟨none, some (3, 4), none, none⟩ 10 20
      = (Except.ok (), ⟨none, some (3, 4), none, none⟩) :=
  resize_overlay_no_window_noop ⟨none, some (3, 4), none, none⟩ 10 20 rfl

/-- C5: on an existing window whose set-size call succeeds, the size
applied by `resize_overlay` is exactly (max width 48, max height 48): an
axis below 48 is clamped up to 48 and an axis at or above 48 passes
through unchanged. -/
theorem resize_overlay_clamp_spec :
    ∀ (st : OverlayWorld) (win : WindowHandle) (w h : ℚ),
      st.window = some win → win.set_size_ok = true →
      ((resize_overlay st w h).2.applied_size = some (max w 48, max h 48)
       ∧ (48 ≤ w → 48 ≤ h → (resize_overlay st w h).2.applied_size = some (w, h))
       ∧ (w < 48 → ((resize_overlay st w h).2.applied_size.map Prod.fst) = some 48)
       ∧ (h < 48 → ((resize_overlay st w h).2.applied_size.map Prod.snd) = some 48)) := by
  intro st win w h hw hs
  obtain ⟨stw, soc, sas, sap⟩ := st
  simp only at hw
  subst hw
  have hmain : (resize_overlay ⟨some win, soc, sas, sap⟩ w h).2.applied_size
      = some (max w 48, max h 48) := by
    cases soc with
    | some c =>
      cases hsp : win.set_position_ok <;> simp [resize_overlay, hs, hsp]
    | none =>
      cases hop : win.outer_position <;> cases hos : win.outer_size <;>
        cases hsp : win.set_position_ok <;>
        simp [resize_overlay, hs, hop, hos, hsp]
  refine ⟨hmain, ?_, ?_, ?_⟩
  · intro h1 h2
    rw [hmain, max_eq_left h1, max_eq_left h2]
  · intro h1
    rw [hmain]
    simp [max_eq_right (le_of_lt h1)]
  · intro h1
    rw [hmain]
    simp [max_eq_right (le_of_lt h1)]

/-- C5 witness: requesting 10 by 100 on a live window applies 48 by 100. -/
theorem resize_overlay_clamp_spec_witness :
    (resize_overlay ⟨some ⟨none, none, none, true, true⟩, none, none, none⟩ 10 100).2.applied_size
      = some (48, 100) := by
  have h := (resize_overlay_clamp_spec
    ⟨some ⟨none, none, none, true, true⟩, none, none, none⟩
    ⟨none, none, none, true, true⟩ 10 100 rfl rfl).1
  rw [h]
  norm_num

/-- C8: on an existing window, whenever the set-position call is reached —
a center is available after the initialization step, whether it was
already cached or freshly computed in this call from successful geometry
queries — a set-size success followed by a set-position failure returns a
string error with the new clamped size already applied and the position
untouched; and whatever the center state, a set-size failure returns a
string error before any size or position change. -/
theorem resize_overlay_partial_failure_spec :
    ∀ (st : OverlayWorld) (win : WindowHandle) (w h : ℚ),
      st.window = some win →
      ((win.set_size_ok = true → win.set_position_ok = false →
         (st.overlay_center.isSome = true
           ∨ (win.outer_position.isSome = true ∧ win.outer_size.isSome = true)) →
         (resize_overlay st w h).1 = Except.error "set_position failed"
         ∧ (resize_overlay st w h).2.applied_size = some (max w 48, max h 48)
         ∧ (resize_overlay st w h).2.applied_position = st.applied_position)
       ∧ (win.set_size_ok = false →
         (resize_overlay st w h).1 = Except.error "set_size failed"
         ∧ (resize_overlay st w h).2.applied_size = st.applied_size
         ∧ (resize_overlay st w h).2.applied_position = st.applied_position)) := by
  intro st win w h hw
  obtain ⟨stw, soc, sas, sap⟩ := st
  simp only at hw
  subst hw
  constructor
  · intro h1 h2 h3
    cases soc with
    | none =>
      rcases h3 with h3 | ⟨hp, hq⟩
      · simp at h3
      · obtain ⟨p, hp'⟩ := Option.isSome_iff_exists.1 hp
        obtain ⟨q, hq'⟩ := Option.isSome_iff_exists.1 hq
        simp [resize_overlay, h1, h2, hp', hq']
    | some c =>
      simp [resize_overlay, h1, h2]
  · intro h1
    cases soc with
    | none =>
      cases hop : win.outer_position <;> cases hos : win.outer_size <;>
        simp [resize_overlay, h1, hop, hos]
    | some c =>
      simp [resize_overlay, h1]

/-- C8 witness: the partially-applied terminal state at a concrete world
with no cached center, whose center is freshly initialized from
successful geometry queries in the same call in which set-position then
fails. -/
theorem resize_overlay_partial_failure_spec_witness :
    (resize_overlay ⟨some ⟨some (0, 0), some (20, 20), some 1, true, false⟩,
        none, none, some (1, 2)⟩ 60 10).1 = Except.error "set_position failed"
    ∧ (resize_overlay ⟨some ⟨some (0, 0), some (20, 20), some 1, true, false⟩,
        none, none, some (1, 2)⟩ 60 10).2.applied_size = some (max 60 48, max 10 48)
    ∧ (resize_overlay ⟨some ⟨some (0, 0), some (20, 20), some 1, true, false⟩,
        none, none, some (1, 2)⟩ 60 10).2.applied_position = some (1, 2) :=
  (resize_overlay_partial_failure_spec
    ⟨some ⟨some (0, 0), some (20, 20), some 1, true, false⟩, none, none, some (1, 2)⟩
    ⟨some (0, 0), some (20, 20), some 1, true, false⟩ 60 10 rfl).1 rfl rfl
    (Or.inr ⟨rfl, rfl⟩)

/-- C9: on an existing window with no cached center, when the outer
position or outer size query fails, `resize_overlay` still applies the
clamped size, skips repositioning, returns success, and leaves the cached
center unset. -/
theorem resize_overlay_center_query_failure_spec :
    ∀ (st : OverlayWorld) (win : WindowHandle) (w h : ℚ),
      st.window = some win → st.overlay_center = none →
      (win.outer_position = none ∨ win.outer_size = none) →
      win.set_size_ok = true →
      ((resize_overlay st w h).1 = Except.ok ()
       ∧ (resize_overlay st w h).2.applied_size = some (max w 48, max h 48)
       ∧ (resize_overlay st w h).2.applied_position = st.applied_position
       ∧ (resize_overlay st w h).2.overlay_center = none) := by
  intro st win w h hw hc hq hs
  obtain ⟨stw, soc, sas, sap⟩ := st
  simp only at hw hc
  subst hw
  subst hc
  rcases hq with hq | hq
  · simp [resize_overlay, hs, hq]
  · cases hop : win.outer_position <;> simp [resize_overlay, hs, hop, hq]

/-- C9 witness: a failed outer-position query at a concrete world leaves
the center uninitialized while the resize succeeds. -/
theorem resize_overlay_center_query_failure_spec_witness :
    (resize_overlay ⟨some ⟨none, some (10, 10), none, true, true⟩, none, none, none⟩
        100 100).1 = Except.ok ()
    ∧ (resize_overlay ⟨some ⟨none, some (10, 10), none, true, true⟩, none, none, none⟩
        100 100).2.applied_size = some (max 100 48, max 100 48)
    ∧ (resize_overlay ⟨some ⟨none, some (10, 10), none, true, true⟩, none, none, none⟩
        100 100).2.applied_position = none
    ∧ (resize_overlay ⟨some ⟨none, some (10, 10), none, true, true⟩, none, none, none⟩
        100 100).2.overlay_center = none :=
  resize_overlay_center_query_failure_spec
    ⟨some ⟨none, some (10, 10), none, true, true⟩, none, none, none⟩
    ⟨none, some (10, 10), none, true, true⟩ 100 100 rfl rfl (Or.inl rfl) rfl

/-- C1 counterexample: at a world with a cached center (100, 100) and a
window dragged to (200, 200) with outer size 10 by 10 and scale 1,
`resize_overlay 50 60` repositions using the cached center, yielding
position (75, 70), not the (180, 175) that recomputing the center from
the live geometry (center (205, 205)) would yield. -/
theorem resize_overlay_recompute_counterexample :
    (resize_overlay stickyProbeWorld 50 60).2.applied_position = some (75, 70)
    ∧ ((75 : ℚ), (70 : ℚ))
        ≠ ((200 : ℚ) + 10 / 2 - 50 / 2, (200 : ℚ) + 10 / 2 - 60 / 2) := by
  have h50 : max (50 : ℚ) 48 = 50 := max_eq_left (by norm_num)
  have h60 : max (60 : ℚ) 48 = 60 := max_eq_left (by norm_num)
  constructor
  · simp [resize_overlay, stickyProbeWorld, h50, h60]
    norm_num
  · simp only [Ne, Prod.mk.injEq, not_and]
    intro h75
    exfalso
    norm_num at h75

/-- C1 (amended): `resize_overlay` is sticky, not recompute-per-call: the
anchor center is computed from the window's live outer position and size
(divided by the scale factor) only when no center is cached, and once
cached it is reused verbatim by every later call, so a user drag between
two resize calls does not relocate the anchor used by the second call. -/
theorem resize_overlay_sticky_center_spec :
    ∀ (st : OverlayWorld) (win : WindowHandle) (w h : ℚ),
      st.window = some win →
      ((∀ c : ℚ × ℚ, st.overlay_center = some c →
          (resize_overlay st w h).2.overlay_center = some c
          ∧ (win.set_size_ok = true → win.set_position_ok = true →
              (resize_overlay st w h).2.applied_position
                = some (c.1 - max w 48 / 2, c.2 - max h 48 / 2)))
       ∧ (∀ px py : ℤ, ∀ sw sh : ℕ, st.overlay_center = none →
          win.outer_position = some (px, py) → win.outer_size = some (sw, sh) →
          (resize_overlay st w h).2.overlay_center
            = some ((px : ℚ) / win.scale_factor.getD 1
                      + ((sw : ℚ) / win.scale_factor.getD 1) / 2,
                    (py : ℚ) / win.scale_factor.getD 1
                      + ((sh : ℚ) / win.scale_factor.getD 1) / 2))) := by
  intro st win w h hw
  obtain ⟨stw, soc, sas, sap⟩ := st
  simp only at hw
  subst hw
  constructor
  · intro c hc
    simp only at hc
    subst hc
    constructor
    · cases hss : win.set_size_ok <;> cases hsp : win.set_position_ok <;>
        simp [resize_overlay, hss, hsp]
    · intro h1 h2
      simp [resize_overlay, h1, h2]
  · intro px py sw sh hc hop hos
    simp only at hc
    subst hc
    cases hss : win.set_size_ok <;> cases hsp : win.set_position_ok <;>
      simp [resize_overlay, hss, hsp, hop, hos]

/-- C1 witness: the sticky reuse of a cached center at the probe world —
both the surviving cache and the reposition target derive from the cached
(100, 100). -/
theorem resize_overlay_sticky_center_spec_witness :
    (resize_overlay stickyProbeWorld 50 60).2.overlay_center = some (100, 100)
    ∧ (resize_overlay stickyProbeWorld 50 60).2.applied_position
        = some ((100 : ℚ) - max 50 48 / 2, (100 : ℚ) - max 60 48 / 2) := by
  have h := (resize_overlay_sticky_center_spec stickyProbeWorld
    ⟨some (200, 200), some (10, 10), some 1, true, true⟩ 50 60 rfl).1 (100, 100) rfl
  exact ⟨h.1, h.2 rfl rfl⟩

